import Mathlib

/-! Shallow embedding of the carousel-optimizer backend core
(`quality_metrics.py`, `similarity.py`, `embeddings.py`,
`recommendation_engine.py`) together with theorems checking the
specified properties of those modules.  Python floats are modelled as
exact rationals; calls into external libraries (numpy, sklearn, torch,
PIL, cv2) are modelled as explicit function parameters, and Python
exceptions as `Except` results. -/

/-- Container for image quality metrics: the four raw measurements held by
`QualityMetrics.__init__` in `quality_metrics.py`.  The derived fields
(`composite_score`, `flags`, `suggestions`) are modelled as functions of
these raw fields. -/
structure QualityMetrics where
  blur_score : ℚ
  brightness : ℚ
  contrast : ℚ
  resolution : ℕ × ℕ
  deriving Repr, DecidableEq

/-- `QualityMetrics._calculate_composite_score`: weighted average of the
normalised metrics, scaled to 0-100 and clamped. -/
def QualityMetrics.composite_score (m : QualityMetrics) : ℚ :=
  let blur_norm := min (m.blur_score / 1000) 1
  let brightness_norm := 1 - |m.brightness - 128| / 128
  let contrast_norm := min (m.contrast / 64) 1
  let resolution_norm := min (((m.resolution.1 * m.resolution.2 : ℕ) : ℚ) / (1920 * 1080)) 1
  let composite :=
    blur_norm * 0.4 + brightness_norm * 0.25 + contrast_norm * 0.25 + resolution_norm * 0.1
  min (max (composite * 100) 0) 100

/-- `QualityMetrics._generate_flags`: qualitative flags appended in source
order (blur, brightness, contrast, resolution category, pixel density,
aspect ratio). -/
def QualityMetrics.generate_flags (m : QualityMetrics) : List String :=
  let width := m.resolution.1
  let height := m.resolution.2
  let pixels := width * height
  let aspect : ℚ := if height > 0 then (width : ℚ) / (height : ℚ) else 1
  (if m.blur_score < 100 then ["blurry"]
   else if m.blur_score < 300 then ["slightly_blurry"] else [])
  ++ (if m.brightness < 50 then ["too_dark"]
      else if m.brightness < 80 then ["dark"]
      else if m.brightness > 200 then ["too_bright"]
      else if m.brightness > 170 then ["bright"] else [])
  ++ (if m.contrast < 20 then ["low_contrast"]
      else if m.contrast < 35 then ["moderate_contrast"] else [])
  ++ (if width < 800 ∨ height < 600 then ["inadequate_resolution"]
      else if width < 1200 ∨ height < 800 then ["low_resolution"]
      else if width < 1920 ∨ height < 1080 then ["moderate_resolution"] else [])
  ++ (if pixels < 480000 then ["very_low_pixel_count"]
      else if pixels < 960000 then ["low_pixel_count"] else [])
  ++ (if aspect < 0.7 ∨ aspect > 1.5 then ["unusual_aspect_ratio"] else [])

/-- Python `f-string` formatting with one decimal place, used for the
megapixel suggestion. -/
def format1f (q : ℚ) : String :=
  let n : ℤ := round (q * 10)
  toString (n / 10) ++ "." ++ toString (n % 10)

/-- Python `f-string` formatting with two decimal places, used for the
aspect-ratio suggestion. -/
def format2f (q : ℚ) : String :=
  let n : ℤ := round (q * 100)
  toString (n / 100) ++ "." ++ (if n % 100 < 10 then "0" else "") ++ toString (n % 100)

/-- The suggestion entries accumulated by `QualityMetrics._generate_suggestions`
before the final "meets standards" block (critical resolution, sharpness,
lighting, contrast, resolution tier, pixel density, aspect ratio, overall
grade), in source order. -/
def QualityMetrics.suggestions_base (m : QualityMetrics) : List String :=
  let flags := m.generate_flags
  let width := m.resolution.1
  let height := m.resolution.2
  let pixels := width * height
  (if "inadequate_resolution" ∈ flags ∨ "very_low_pixel_count" ∈ flags then
     ["🚨 CRITICAL: Image too small (" ++ toString width ++ "x" ++ toString height
        ++ ") - Minimum 1200x800 required for e-commerce",
      "📱 Low resolution causes pixelation and reduces customer trust by 45%",
      "🔄 Action: Retake with higher quality camera or download full-size image"]
   else [])
  ++ (if "blurry" ∈ flags then
        ["🎯 URGENT: Image is blurry - Sharp images increase conversion by 25%",
         "📸 Fix: Use tripod, better focus, or increase shutter speed"]
      else if "slightly_blurry" ∈ flags then
        ["⚠️ Slight blur detected - Product details may not be clear",
         "✨ Tip: Use focus lock and ensure stable camera position"]
      else if m.blur_score > 800 then
        ["✅ Exceptional sharpness - Showcases fine product details perfectly"]
      else if m.blur_score > 500 then
        ["✅ Sharp and clear - Professional quality focus"]
      else [])
  ++ (if "too_dark" ∈ flags then
        ["💡 CRITICAL: Image too dark - Well-lit products get 30% more clicks",
         "☀️ Solution: Add lighting, use softbox, or shoot near windows"]
      else if "dark" ∈ flags then
        ["🔦 Slightly dark - Consider adding fill light to reveal details"]
      else if "too_bright" ∈ flags then
        ["☀️ WARNING: Overexposed - Bright areas lose detail and color accuracy",
         "🔆 Fix: Reduce exposure, use diffuser, or move away from direct light"]
      else if "bright" ∈ flags then
        ["💡 Slightly bright - Watch for blown-out highlights"]
      else if 100 ≤ m.brightness ∧ m.brightness ≤ 150 then
        ["✅ Perfect lighting - Accurate color and detail representation"]
      else [])
  ++ (if "low_contrast" ∈ flags then
        ["🎨 Low contrast - Images appear flat and reduce visual impact by 40%",
         "📊 Fix: Use contrasting background or adjust lighting setup"]
      else if "moderate_contrast" ∈ flags then
        ["⚡ Moderate contrast - Could be improved for better product definition"]
      else if m.contrast > 50 then
        ["✅ Excellent contrast - Product pops and draws attention"]
      else [])
  ++ (if "low_resolution" ∈ flags ∧ ¬ ("inadequate_resolution" ∈ flags) then
        ["📐 Resolution low (" ++ toString width ++ "x" ++ toString height
           ++ ") - Recommend 1920x1080 for premium experience",
         "🔍 Impact: Limits zoom capability and mobile display quality"]
      else if "moderate_resolution" ∈ flags then
        ["📏 Good resolution (" ++ toString width ++ "x" ++ toString height
           ++ ") - Consider upgrading to 1920x1080 for hero images"]
      else if width ≥ 1920 ∧ height ≥ 1080 then
        ["✅ Premium resolution (" ++ toString width ++ "x" ++ toString height
           ++ ") - Perfect for zoom, mobile, and retina displays"]
      else [])
  ++ (if "low_pixel_count" ∈ flags then
        ["📊 " ++ format1f ((pixels : ℚ) / 1000000)
           ++ "MP image - E-commerce standard is 2MP+ for detailed views"]
      else [])
  ++ (if "unusual_aspect_ratio" ∈ flags then
        ["⚠️ Unusual aspect ratio (" ++ format2f ((width : ℚ) / (height : ℚ))
           ++ ":1) - May not display well across devices",
         "📱 Recommendation: Use 1:1 (square) or 4:3 ratio for e-commerce"]
      else [])
  ++ (if m.composite_score ≥ 90 then
        ["🏆 EXCEPTIONAL quality - Ideal for hero image and marketing materials",
         "💎 This image maximizes conversion potential"]
      else if m.composite_score ≥ 80 then
        ["⭐ Professional quality - Excellent for main carousel"]
      else if m.composite_score ≥ 70 then
        ["👍 Good quality - Suitable for carousel, minor improvements possible"]
      else if m.composite_score ≥ 60 then
        ["✔️ Acceptable quality - Usable but consider improvements"]
      else
        ["⚠️ Below standard - Consider retaking for better customer experience",
         "📉 Low quality images increase bounce rate by 35%"])

/-- `QualityMetrics._generate_suggestions`: the accumulated suggestions, the
conditional "meets standards" block, capped at 8 entries. -/
def QualityMetrics.generate_suggestions (m : QualityMetrics) : List String :=
  let suggestions := m.suggestions_base
  let suggestions :=
    if suggestions.length < 3 ∧ m.generate_flags = [] then
      suggestions ++
        ["✅ Meets all e-commerce quality standards",
         "🎯 Ready for immediate use - Will drive conversions",
         "💰 Professional-grade image quality"]
    else suggestions
  suggestions.take 8

/-- Quality grade bucketing from `QualityMetrics.to_dict`. -/
def QualityMetrics.quality_grade (m : QualityMetrics) : String :=
  if m.composite_score ≥ 90 then "EXCEPTIONAL"
  else if m.composite_score ≥ 80 then "PROFESSIONAL"
  else if m.composite_score ≥ 70 then "GOOD"
  else if m.composite_score ≥ 60 then "ACCEPTABLE"
  else "POOR"

/-- `QualityAnalyzer.analyze_image_quality`.  `decoded` is the outcome of
decoding the image (`cv2.imread` / `PIL.Image.open`): `none` when the image
cannot be decoded, `some (w, h)` with its dimensions otherwise.  `measure`
stands for the external cv2 statistics (`detect_blur`,
`calculate_brightness`, `calculate_contrast`).  Every exception raised
inside the body is caught and turned into the all-zero metrics. -/
def QualityAnalyzer.analyze_image_quality (hasCV2 : Bool) (decoded : Option (ℕ × ℕ))
    (measure : ℕ × ℕ → ℚ × ℚ × ℚ) : QualityMetrics :=
  if hasCV2 = false then
    match decoded with
    | some wh => ⟨150, 128, 45, wh⟩
    | none => ⟨0, 0, 0, (0, 0)⟩
  else
    match decoded with
    | none => ⟨0, 0, 0, (0, 0)⟩
    | some wh =>
      let s := measure wh
      ⟨s.1, s.2.1, s.2.2, wh⟩

/-- One entry of `SimilarityResult.duplicates`: the dictionary
`{"image_a": ..., "image_b": ..., "similarity": ...}` appended by
`SimilarityResult._find_duplicates`. -/
structure DuplicateEntry where
  image_a : String
  image_b : String
  similarity : ℚ
  deriving Repr, DecidableEq

/-- Entry `matrix[i, j]` of a similarity matrix represented as a list of
rows. -/
def mget (m : List (List ℚ)) (i j : ℕ) : ℚ :=
  (m.getD i []).getD j 0

/-- `SimilarityResult._find_duplicates`: every unordered pair `(i, j)` with
`i < j` whose similarity is strictly above the threshold. -/
def find_duplicates (m : List (List ℚ)) (image_ids : List String) (threshold : ℚ) :
    List DuplicateEntry :=
  let n := image_ids.length
  (List.range n).flatMap fun i =>
    (List.range' (i + 1) (n - (i + 1))).filterMap fun j =>
      if mget m i j > threshold then
        some ⟨image_ids.getD i "", image_ids.getD j "", mget m i j⟩
      else none

/-- Container mirroring `SimilarityResult`. -/
structure SimilarityResult where
  similarity_matrix : List (List ℚ)
  image_ids : List String
  duplicates : List DuplicateEntry
  deriving Repr, DecidableEq

/-- `SimilarityResult.__init__`: stores the matrix and ids and computes the
duplicate list at the default threshold 0.92. -/
def mkSimilarityResult (m : List (List ℚ)) (image_ids : List String) : SimilarityResult :=
  ⟨m, image_ids, find_duplicates m image_ids 0.92⟩

/-- `SimilarityResult.get_similarity`: looks both ids up in `image_ids` and
reads the matrix entry; a failed lookup (`ValueError` from `list.index`)
yields 0.0. -/
def SimilarityResult.get_similarity (r : SimilarityResult) (image_a_id image_b_id : String) : ℚ :=
  match r.image_ids.indexOf? image_a_id, r.image_ids.indexOf? image_b_id with
  | some idx_a, some idx_b => mget r.similarity_matrix idx_a idx_b
  | _, _ => 0

/-- `SimilarityResult.get_duplicate_ids`: the set of all ids occurring in a
duplicate pair (a Python `set`, modelled by a list up to membership). -/
def SimilarityResult.get_duplicate_ids (r : SimilarityResult) : List String :=
  r.duplicates.flatMap fun dup => [dup.image_a, dup.image_b]

/-- `SimilarityAnalyzer.analyze_similarity`.  `computeMatrix` stands for
`compute_similarity_matrix` (sklearn `cosine_similarity`, with its
identity-matrix fallback), an external computation.  Raises `ValueError`
when the number of embeddings does not match the number of ids. -/
def analyze_similarity (computeMatrix : List (List ℚ) → List (List ℚ))
    (embeddings : List (List ℚ)) (image_ids : List String) (duplicate_threshold : ℚ) :
    Except String SimilarityResult :=
  if embeddings.length ≠ image_ids.length then
    .error "Number of embeddings must match number of image IDs"
  else if embeddings.isEmpty then
    .ok (mkSimilarityResult [] [])
  else
    let similarity_matrix := computeMatrix embeddings
    let result := mkSimilarityResult similarity_matrix image_ids
    if duplicate_threshold ≠ 0.92 then
      .ok { result with duplicates := find_duplicates similarity_matrix image_ids duplicate_threshold }
    else
      .ok result

/-- `SimilarityAnalyzer.get_diversity_score`: 1.0 for an empty selected set,
otherwise one minus the running maximum (started at 0.0) of the
similarities to the selected ids. -/
def get_diversity_score (image_id : String) (selected_ids : List String)
    (result : SimilarityResult) : ℚ :=
  if selected_ids.isEmpty then 1
  else
    let max_similarity :=
      selected_ids.foldl (fun acc s => max acc (result.get_similarity image_id s)) 0
    1 - max_similarity

/-- Container for image data and metadata (`ImageData` dataclass).  The file
path is kept as a plain string; the embedding attribute is not consulted by
the engine. -/
structure ImageData where
  id : String
  filename : String
  path : String
  quality_metrics : QualityMetrics
  deriving Repr, DecidableEq

/-- Container for a single recommendation item (`RecommendationItem`
dataclass). -/
structure RecommendationItem where
  position : ℕ
  image_id : String
  score : ℚ
  reason : String
  is_hero : Bool := false
  deriving Repr, DecidableEq

/-- Container for carousel recommendation results (`RecommendationResult`). -/
structure RecommendationResult where
  recommendations : List RecommendationItem
  similarity_result : SimilarityResult
  deriving Repr, DecidableEq

/-- `RecommendationResult.hero_image`: the first recommendation carrying the
hero flag, if any. -/
def RecommendationResult.hero_image (r : RecommendationResult) : Option RecommendationItem :=
  r.recommendations.find? fun item => item.is_hero

/-- The mutable configuration of `CarouselRecommendationEngine`
(`quality_weight`, `diversity_weight`, `duplicate_penalty`), with the
defaults set in `__init__`. -/
structure CarouselRecommendationEngine where
  quality_weight : ℚ := 0.6
  diversity_weight : ℚ := 0.4
  duplicate_penalty : ℚ := 0.3
  deriving Repr, DecidableEq

/-- The hero score computed inside `_select_hero_image`: composite quality,
multiplied by 0.2 when the image id is in the duplicate set, then by 1.1
when the resolution is at least 1200x800. -/
def hero_score (image : ImageData) (duplicate_ids : List String) : ℚ :=
  let quality_score := image.quality_metrics.composite_score
  let quality_score := if image.id ∈ duplicate_ids then quality_score * 0.2 else quality_score
  let width := image.quality_metrics.resolution.1
  let height := image.quality_metrics.resolution.2
  if width ≥ 1200 ∧ height ≥ 800 then quality_score * 1.1 else quality_score

/-- One step of Python's `max(..., key=...)`: the running maximum is replaced
only when a later element is strictly greater, so the first maximal element
wins. -/
def py_max_step {β : Type} (key : β → ℚ) (best x : β) : β :=
  if key x > key best then x else best

/-- `CarouselRecommendationEngine._select_hero_image`: score every image and
take the maximum by score (`max` over the scored list; `none` only for an
empty list, where Python's `max` raises). -/
def select_hero_image (images : List ImageData) (duplicate_ids : List String) :
    Option ImageData :=
  let scored_images := images.map fun image => (image, hero_score image duplicate_ids)
  match scored_images with
  | [] => none
  | x :: xs => some (xs.foldl (py_max_step fun p => p.2) x).1

/-- The reason string assembled for a non-hero image inside
`_rank_remaining_images`. -/
def remaining_reason (image : ImageData) (quality_score diversity_score : ℚ)
    (is_duplicate : Bool) : String :=
  let reason_parts :=
    (if quality_score ≥ 0.85 then ["âœ… Premium quality"]
     else if quality_score ≥ 0.70 then ["âœ“ Strong quality"]
     else if quality_score ≥ 0.60 then ["Good quality"]
     else ["Acceptable quality"])
    ++ (if diversity_score > 0.75 then ["ðŸŽ¯ Unique angle - Adds product depth"]
        else if diversity_score > 0.5 then ["ðŸ“¸ Good variety - Enhances carousel flow"]
        else if diversity_score > 0.3 then ["Similar perspective - Use strategically"]
        else ["âš ï¸ Very similar - Consider replacing"])
    ++ (if image.quality_metrics.blur_score > 500 then ["Sharp details"] else [])
    ++ (if image.quality_metrics.resolution.1 ≥ 1920 then ["High-res"] else [])
    ++ (if is_duplicate then ["âš ï¸ Duplicate detected - Remove or replace"] else [])
  String.intercalate " â€¢ " reason_parts

/-- `CarouselRecommendationEngine._rank_remaining_images`: combined
quality/diversity score with the duplicate penalty, sorted descending by
score (Python's stable `sorted` with `reverse=True`). -/
def rank_remaining_images (engine : CarouselRecommendationEngine)
    (images : List ImageData) (selected_images : List ImageData)
    (similarity_result : SimilarityResult) (duplicate_ids : List String) :
    List (ImageData × ℚ × String) :=
  let selected_ids := selected_images.map fun img => img.id
  let scored_images := images.map fun image =>
    let quality_score := image.quality_metrics.composite_score / 100
    let diversity_score := get_diversity_score image.id selected_ids similarity_result
    let combined_score :=
      engine.quality_weight * quality_score + engine.diversity_weight * diversity_score
    let is_duplicate := image.id ∈ duplicate_ids
    let combined_score :=
      if is_duplicate then combined_score * engine.duplicate_penalty else combined_score
    let reason := remaining_reason image quality_score diversity_score is_duplicate
    (image, combined_score * 100, reason)
  scored_images.mergeSort fun a b => decide (b.2.1 ≤ a.2.1)

/-- `CarouselRecommendationEngine._get_hero_reason`. -/
def get_hero_reason (hero_image : ImageData) (duplicate_ids : List String) : String :=
  let quality := hero_image.quality_metrics.composite_score
  let reasons :=
    (if quality ≥ 90 then ["ðŸ† Premium quality (top 10%)"]
     else if quality ≥ 80 then ["â­ Excellent quality"]
     else if quality ≥ 70 then ["âœ“ Strong quality"]
     else if quality ≥ 60 then ["Good quality"]
     else ["Acceptable quality"])
    ++ (if hero_image.quality_metrics.blur_score > 500 then ["crystal clear focus"] else [])
    ++ (if 110 ≤ hero_image.quality_metrics.brightness ∧
           hero_image.quality_metrics.brightness ≤ 145 then ["optimal lighting"] else [])
    ++ (if hero_image.quality_metrics.contrast > 50 then ["vibrant contrast"] else [])
    ++ (let width := hero_image.quality_metrics.resolution.1
        let height := hero_image.quality_metrics.resolution.2
        if width ≥ 1920 ∧ height ≥ 1080 then ["premium resolution"]
        else if width ≥ 1200 ∧ height ≥ 800 then ["high resolution"]
        else [])
    ++ (if ¬ (hero_image.id ∈ duplicate_ids) then ["unique perspective"] else [])
    ++ (if quality ≥ 85 ∧ hero_image.quality_metrics.blur_score > 500 then
          ["ðŸ’° Maximizes conversion potential"]
        else [])
  if reasons.isEmpty then "Best available - consider retaking for optimal results"
  else String.intercalate " â€¢ " reasons

/-- `CarouselRecommendationEngine.generate_recommendations`: similarity
analysis, hero selection, ranking of the remaining images, and assembly of
the positioned recommendation list. -/
def generate_recommendations (computeMatrix : List (List ℚ) → List (List ℚ))
    (engine : CarouselRecommendationEngine) (images : List ImageData)
    (embeddings : List (List ℚ)) (duplicate_threshold : ℚ) :
    Except String RecommendationResult :=
  if images.isEmpty then
    .ok ⟨[], mkSimilarityResult [] []⟩
  else do
    let image_ids := images.map fun img => img.id
    let similarity_result ←
      analyze_similarity computeMatrix embeddings image_ids duplicate_threshold
    let duplicate_ids := similarity_result.get_duplicate_ids
    match select_hero_image images duplicate_ids with
    | none => .error "max() arg is an empty sequence"
    | some hero_image =>
      let remaining_images := images.filter fun img => img.id ≠ hero_image.id
      let ranked_images :=
        rank_remaining_images engine remaining_images [hero_image]
          similarity_result duplicate_ids
      let recommendations :=
        ⟨1, hero_image.id, hero_image.quality_metrics.composite_score,
          "Hero: " ++ get_hero_reason hero_image duplicate_ids, true⟩ ::
        (ranked_images.enumFrom 2).map fun p =>
          ⟨p.1, p.2.1.id, p.2.2.1, p.2.2.2, false⟩
      .ok ⟨recommendations, similarity_result⟩

/-- `CarouselRecommendationEngine.update_weights`: `ValueError` when the
weights are further than 0.01 from summing to 1.0, otherwise the updated
engine. -/
def update_weights (engine : CarouselRecommendationEngine)
    (quality_weight diversity_weight : ℚ) : Except String CarouselRecommendationEngine :=
  if |quality_weight + diversity_weight - 1| > 0.01 then
    .error "Quality and diversity weights must sum to 1.0"
  else
    .ok { engine with quality_weight := quality_weight, diversity_weight := diversity_weight }

/-- `CarouselRecommendationEngine.set_duplicate_penalty`: `ValueError` when
the penalty is outside [0, 1], otherwise the updated engine. -/
def set_duplicate_penalty (engine : CarouselRecommendationEngine) (penalty : ℚ) :
    Except String CarouselRecommendationEngine :=
  if ¬ (0 ≤ penalty ∧ penalty ≤ 1) then
    .error "Duplicate penalty must be between 0 and 1"
  else
    .ok { engine with duplicate_penalty := penalty }

/-- `EmbeddingCache` from `embeddings.py`: a bounded cache made of a Python
dict (association list `cache`) and a recency list `access_order` (least
recently used first). -/
structure EmbeddingCache (V : Type) where
  max_size : ℕ := 100
  cache : List (String × V) := []
  access_order : List String := []

/-- `EmbeddingCache.__init__`. -/
def mkEmbeddingCache (V : Type) (max_size : ℕ) : EmbeddingCache V :=
  ⟨max_size, [], []⟩

/-- Python dict update `d[key] = value` for a key already present: the value
is replaced in place. -/
def dict_set {V : Type} (d : List (String × V)) (key : String) (v : V) : List (String × V) :=
  d.map fun p => if p.1 = key then (key, v) else p

/-- Python `del d[key]`: the binding for `key` is removed. -/
def dict_del {V : Type} (d : List (String × V)) (key : String) : List (String × V) :=
  d.filter fun p => ¬ p.1 = key

/-- `EmbeddingCache.get`: on a hit the key is moved to the tail of
`access_order` (most recently used) and its value returned; a miss leaves
the cache untouched. -/
def EmbeddingCache.get {V : Type} (c : EmbeddingCache V) (key : String) :
    Option V × EmbeddingCache V :=
  match c.cache.lookup key with
  | some v => (some v, { c with access_order := c.access_order.erase key ++ [key] })
  | none => (none, c)

/-- `EmbeddingCache.put`: an existing key is updated and moved to most
recently used; a new key is inserted, evicting the head of `access_order`
(the least recently used key) when the cache is full.  (Python would raise
`IndexError` on `pop(0)` were the access order empty at that point; that
state is unreachable from a well-formed cache, and the model returns the
cache unchanged there.) -/
def EmbeddingCache.put {V : Type} (c : EmbeddingCache V) (key : String) (v : V) :
    EmbeddingCache V :=
  if (c.cache.lookup key).isSome then
    { c with
      cache := dict_set c.cache key v,
      access_order := c.access_order.erase key ++ [key] }
  else
    let c' :=
      if c.cache.length ≥ c.max_size then
        match c.access_order with
        | lru_key :: rest => { c with cache := dict_del c.cache lru_key, access_order := rest }
        | [] => c
      else c
    { c' with cache := c'.cache ++ [(key, v)], access_order := c'.access_order ++ [key] }

/-- `EmbeddingCache.clear`. -/
def EmbeddingCache.clear {V : Type} (c : EmbeddingCache V) : EmbeddingCache V :=
  { c with cache := [], access_order := [] }

/-- Well-formedness of an `EmbeddingCache`: the dict keys are a permutation
of the access order, the access order has no repeats, the size is within
the capacity, and the capacity is positive (the constructor uses 100). -/
def EmbeddingCache.WF {V : Type} (c : EmbeddingCache V) : Prop :=
  (c.cache.map Prod.fst).Perm c.access_order ∧ c.access_order.Nodup ∧
    c.cache.length ≤ c.max_size ∧ 0 < c.max_size

instance {V : Type} [DecidableEq V] (c : EmbeddingCache V) : Decidable c.WF := by
  unfold EmbeddingCache.WF
  infer_instance

/-- The external numpy operations used by `embeddings.py`: seeded
`np.random.normal(0, 1, 512)`, division by `np.linalg.norm` and
`np.zeros(512)`, together with the predicate "has unit L2 norm" on the
vector representation `V`. -/
structure NpOps (V : Type) where
  randomNormal : ℕ → V
  normalize : V → V
  zeros : V
  unit_norm : V → Prop

/-- The mock-embedding path of `EmbeddingGenerator.generate_embedding` when
ML dependencies are absent: seed numpy with `hash(image_hash) % 2**32` and
normalize a 512-dimensional gaussian sample.  `pyHash` stands for Python's
process-wide string hash. -/
def mock_embedding {V : Type} (ops : NpOps V) (pyHash : String → ℕ) (image_hash : String) : V :=
  ops.normalize (ops.randomNormal (pyHash image_hash % 2 ^ 32))

/-- The state of an `EmbeddingGenerator`: whether `self.model` has been
loaded, and the embedding cache (capacity 100 from `__init__`). -/
structure EmbeddingGenerator (V : Type) where
  model_loaded : Bool := false
  cache : EmbeddingCache V

/-- `EmbeddingGenerator.__init__`: no model loaded, empty cache of
capacity 100. -/
def mkEmbeddingGenerator (V : Type) : EmbeddingGenerator V :=
  ⟨false, mkEmbeddingCache V 100⟩

/-- `EmbeddingGenerator.initialize`: a no-op without ML dependencies;
otherwise loads the CLIP model (`loadOk` is the outcome of the external
`open_clip` calls) or raises `RuntimeError`. -/
def EmbeddingGenerator.initialize {V : Type} (hasML loadOk : Bool) (g : EmbeddingGenerator V) :
    Except String (EmbeddingGenerator V) :=
  if hasML = false then .ok g
  else if loadOk then .ok { g with model_loaded := true }
  else .error "Could not initialize CLIP model"

/-- `EmbeddingGenerator.generate_embedding` for one image.  `image_hash` is
the content fingerprint `_get_image_hash` computed from the file;
`encoded` is the outcome of the external load/preprocess/encode pipeline
(`none` when it raises, in which case a zero vector is returned). -/
def EmbeddingGenerator.generate_embedding {V : Type} (ops : NpOps V) (pyHash : String → ℕ)
    (hasML : Bool) (g : EmbeddingGenerator V) (image_hash : String) (encoded : Option V) :
    Except String (V × EmbeddingGenerator V) :=
  if hasML = false then
    .ok (mock_embedding ops pyHash image_hash, g)
  else if g.model_loaded = false then
    .error "Model not initialized. Call initialize() first."
  else
    match g.cache.get image_hash with
    | (some cached, c') => .ok (cached, { g with cache := c' })
    | (none, c') =>
      match encoded with
      | some emb =>
        let emb := ops.normalize emb
        .ok (emb, { g with cache := c'.put image_hash emb })
      | none => .ok (ops.zeros, { g with cache := c' })

/-- `EmbeddingGenerator.generate_embeddings_batch`: raises unless the model
is loaded; otherwise serves cache hits, loads and encodes the uncached
images in one external batch call (`preprocess` / `encode_image`), merges
the results back in input order, and fills failed slots with zero
vectors. -/
def EmbeddingGenerator.generate_embeddings_batch {V P : Type} (ops : NpOps V)
    (fingerprintOf : String → String) (preprocess : String → Option P)
    (encode_image : List P → List V) (g : EmbeddingGenerator V) (image_paths : List String) :
    Except String (List V × EmbeddingGenerator V) :=
  if g.model_loaded = false then
    .error "Model not initialized. Call initialize() first."
  else
    let scan := image_paths.enum.foldl
      (fun (acc : List (Option V) × EmbeddingCache V × List String × List ℕ) p =>
        let (embs, c, uncached_paths, uncached_indices) := acc
        match c.get (fingerprintOf p.2) with
        | (some v, c') => (embs ++ [some v], c', uncached_paths, uncached_indices)
        | (none, c') => (embs ++ [none], c', uncached_paths ++ [p.2], uncached_indices ++ [p.1]))
      ([], g.cache, [], [])
    let (embeddings, c1, uncached_paths, uncached_indices) := scan
    if uncached_paths.isEmpty then
      .ok (embeddings.map (fun o => o.getD ops.zeros), { g with cache := c1 })
    else
      let loaded := uncached_paths.enum.foldl
        (fun (acc : List P × List ℕ) p =>
          match preprocess p.2 with
          | some img => (acc.1 ++ [img], acc.2 ++ [p.1])
          | none => acc)
        ([], [])
      let (images, valid_indices) := loaded
      let store :=
        if images.isEmpty then (embeddings, c1)
        else
          ((encode_image images).map ops.normalize).enum.foldl
            (fun (acc : List (Option V) × EmbeddingCache V) q =>
              if q.1 < valid_indices.length then
                let path_idx := valid_indices.getD q.1 0
                let original_idx := uncached_indices.getD path_idx 0
                (acc.1.set original_idx (some q.2),
                 acc.2.put (fingerprintOf (uncached_paths.getD path_idx "")) q.2)
              else acc)
            (embeddings, c1)
      .ok (store.1.map (fun o => o.getD ops.zeros), { g with cache := store.2 })

/-- The composite-score formula as stated by the specification:
`0.4·min(sharpness/1000,1) + 0.25·(1−|brightness−128|/128) +
0.25·min(contrast/64,1) + 0.1·min(pixels/(1920·1080),1)`, scaled to
0-100 and clamped.  To be compared with
`QualityMetrics.composite_score`. -/
def composite_score_spec (sharpness brightness contrast : ℚ) (width height : ℕ) : ℚ :=
  min (max (100 *
    (0.4 * min (sharpness / 1000) 1 + 0.25 * (1 - |brightness - 128| / 128)
      + 0.25 * min (contrast / 64) 1
      + 0.1 * min (((width * height : ℕ) : ℚ) / (1920 * 1080)) 1)) 0) 100

/-- The hero score as stated by the specification: composite quality times
0.2 when the image is in the duplicate set, times 1.1 when the resolution
is at least 1200×800.  To be compared with `hero_score`. -/
def hero_score_spec (image : ImageData) (duplicate_ids : List String) : ℚ :=
  image.quality_metrics.composite_score *
    (if image.id ∈ duplicate_ids then 0.2 else 1) *
    (if image.quality_metrics.resolution.1 ≥ 1200 ∧ image.quality_metrics.resolution.2 ≥ 800
      then 1.1 else 1)

/-- A concrete instance of the external numpy operations over `ℚ`, used to
instantiate the embedding-generator theorems at concrete inputs. -/
def rationalOps : NpOps ℚ :=
  ⟨fun _ => 2, fun v => v - 1, 0, fun v => v = 1⟩

/-- Python's `max(..., key=...)` scans left to right and replaces the
running maximum only on strictly greater keys: the fold result is an
element of the list, is maximal, and is the first maximal element. -/
lemma py_max_foldl_spec {β : Type} (key : β → ℚ) (l : List β) (a : β) :
    (∀ p ∈ a :: l, key p ≤ key (l.foldl (py_max_step key) a)) ∧
      ∃ l1 l2, a :: l = l1 ++ (l.foldl (py_max_step key) a) :: l2 ∧
        ∀ p ∈ l1, key p < key (l.foldl (py_max_step key) a) := by
  induction l generalizing a with
  | nil =>
    refine ⟨?_, [], [], rfl, by simp⟩
    intro p hp
    simp only [List.mem_singleton] at hp
    simp [hp, List.foldl_nil]
  | cons b t ih =>
    simp only [List.foldl_cons]
    by_cases hba : key b > key a
    · have hstep : py_max_step key a b = b := by simp [py_max_step, hba]
      rw [hstep]
      obtain ⟨hub, l1, l2, hdec, hlt⟩ := ih b
      refine ⟨?_, a :: l1, l2, by simpa using hdec, ?_⟩
      · intro p hp
        rcases List.mem_cons.1 hp with h | h
        · subst h
          exact le_of_lt (lt_of_lt_of_le hba (hub b (by simp)))
        · exact hub p h
      · intro p hp
        rcases List.mem_cons.1 hp with h | h
        · subst h
          exact lt_of_lt_of_le hba (hub b (by simp))
        · exact hlt p h
    · have hstep : py_max_step key a b = a := by simp [py_max_step, hba]
      rw [hstep]
      obtain ⟨hub, l1, l2, hdec, hlt⟩ := ih a
      have hble : key b ≤ key a := le_of_not_lt hba
      generalize hrdef : t.foldl (py_max_step key) a = r at hub hdec hlt ⊢
      refine ⟨?_, ?_⟩
      · intro p hp
        rcases List.mem_cons.1 hp with h | h
        · exact hub p (by simp [h])
        · rcases List.mem_cons.1 h with h' | h'
          · subst h'
            exact le_trans hble (hub a (by simp))
          · exact hub p (by simp [h'])
      · match l1, hdec with
        | [], hdec =>
          have hr : r = a := by
            simpa using (congrArg (fun x => x.head?) hdec).symm
          exact ⟨[], b :: t, by simp [hr], by simp⟩
        | x :: l1', hdec =>
          have hx : a = x ∧ t = l1' ++ r :: l2 := by
            simpa using hdec
          obtain ⟨hxa, ht⟩ := hx
          refine ⟨a :: b :: l1', l2, by rw [ht]; simp, ?_⟩
          intro p hp
          have ha_lt : key a < key r := by
            have := hlt x (by simp)
            simpa [← hxa] using this
          rcases List.mem_cons.1 hp with h | h
          · subst h; exact ha_lt
          · rcases List.mem_cons.1 h with h' | h'
            · subst h'; exact lt_of_le_of_lt hble ha_lt
            · exact hlt p (by simp [h'])

/-- Membership characterisation of `find_duplicates`: the entries are
exactly those generated by an index pair `i < j` above the threshold. -/
lemma mem_find_duplicates {m : List (List ℚ)} {ids : List String} {t : ℚ}
    {e : DuplicateEntry} :
    e ∈ find_duplicates m ids t ↔
      ∃ i j, i < j ∧ j < ids.length ∧ mget m i j > t ∧
        e = ⟨ids.getD i "", ids.getD j "", mget m i j⟩ := by
  simp only [find_duplicates, List.mem_flatMap, List.mem_filterMap, List.mem_range,
    List.mem_range'_1]
  constructor
  · rintro ⟨i, hi, j, ⟨hj1, hj2⟩, hcond⟩
    split at hcond
    · rcases hcond with ⟨rfl⟩
      exact ⟨i, j, by omega, by omega, by assumption, rfl⟩
    · cases hcond
  · rintro ⟨i, j, hij, hj, ht, rfl⟩
    refine ⟨i, by omega, j, ⟨by omega, by omega⟩, ?_⟩
    simp [ht]

/-- Pulling an extra argument out of a left fold of `max`. -/
lemma foldl_max_pull (t : List ℚ) : ∀ a b : ℚ, t.foldl max (max b a) = max b (t.foldl max a) := by
  induction t with
  | nil => intro a b; simp
  | cons c t ih =>
    intro a b
    simp only [List.foldl_cons]
    rw [max_assoc, ih]

/-- `hero_score` agrees with the specification formula `hero_score_spec`. -/
lemma hero_score_eq_spec (image : ImageData) (duplicate_ids : List String) :
    hero_score image duplicate_ids = hero_score_spec image duplicate_ids := by
  simp only [hero_score, hero_score_spec]
  split_ifs <;> ring

/-- `_select_hero_image` on a non-empty list returns the first image
attaining the maximal hero score. -/
lemma select_hero_image_spec (images : List ImageData) (duplicate_ids : List String)
    (h : images ≠ []) :
    ∃ hero, select_hero_image images duplicate_ids = some hero ∧
      (∀ img ∈ images, hero_score img duplicate_ids ≤ hero_score hero duplicate_ids) ∧
      ∃ l1 l2, images = l1 ++ hero :: l2 ∧
        ∀ img ∈ l1, hero_score img duplicate_ids < hero_score hero duplicate_ids := by
  match images, h with
  | i0 :: rest, _ =>
    set f : ImageData → ImageData × ℚ := fun image => (image, hero_score image duplicate_ids)
      with hf
    have hsel : select_hero_image (i0 :: rest) duplicate_ids =
        some ((rest.map f).foldl (py_max_step fun p => p.2) (f i0)).1 := by
      simp only [select_hero_image, List.map_cons]
    obtain ⟨hub, l1, l2, hdec, hlt⟩ :=
      py_max_foldl_spec (fun p : ImageData × ℚ => p.2) (rest.map f) (f i0)
    generalize hrdef : (rest.map f).foldl (py_max_step fun p => p.2) (f i0) = r
      at hsel hub hdec hlt
    have hdec' : (i0 :: rest).map f = l1 ++ r :: l2 := by
      simpa using hdec
    have hrf : r = f r.1 := by
      have hr_mem : r ∈ (i0 :: rest).map f := by
        rw [hdec']
        exact List.mem_append.2 (Or.inr (List.mem_cons_self _ _))
      obtain ⟨img, _, himg⟩ := List.mem_map.1 hr_mem
      rw [← himg]
    refine ⟨r.1, hsel, ?_, ?_⟩
    · intro img hmem
      have : f img ∈ f i0 :: rest.map f := by
        simpa using List.mem_map_of_mem f hmem
      have := hub (f img) this
      calc hero_score img duplicate_ids = (f img).2 := rfl
        _ ≤ r.2 := this
        _ = hero_score r.1 duplicate_ids := by rw [hrf]
    · obtain ⟨m1, m2, hsplit, hm1, hm2⟩ := List.map_eq_append_iff.1 hdec'
      obtain ⟨hero, m2', hm2split, hhero, _⟩ := List.map_eq_cons_iff.1 hm2
      have hhero1 : hero = r.1 := by rw [← hhero]
      refine ⟨m1, m2', by rw [hsplit, hm2split, hhero1], ?_⟩
      intro img hmem
      have : f img ∈ l1 := by
        rw [← hm1]
        exact List.mem_map_of_mem f hmem
      have := hlt (f img) this
      calc hero_score img duplicate_ids = (f img).2 := rfl
        _ < r.2 := this
        _ = hero_score r.1 duplicate_ids := by rw [hrf]

/-- C2: hero selection computes for each image
`heroScore = compositeQuality`, times 0.2 for duplicates and times 1.1 for
resolutions of at least 1200×800, and selects the image with maximal hero
score, breaking ties in favour of the first image in input order. -/
theorem claim_C2 (images : List ImageData) (duplicate_ids : List String)
    (h : images ≠ []) :
    ∃ hero, select_hero_image images duplicate_ids = some hero ∧
      (∀ img, hero_score img duplicate_ids = hero_score_spec img duplicate_ids) ∧
      (∀ img ∈ images, hero_score img duplicate_ids ≤ hero_score hero duplicate_ids) ∧
      ∃ l1 l2, images = l1 ++ hero :: l2 ∧
        ∀ img ∈ l1, hero_score img duplicate_ids < hero_score hero duplicate_ids := by
  obtain ⟨hero, hsel, hub, hfirst⟩ := select_hero_image_spec images duplicate_ids h
  exact ⟨hero, hsel, fun img => hero_score_eq_spec img duplicate_ids, hub, hfirst⟩

/-- C2 witness: the hero-selection theorem instantiated on a concrete
two-image batch with a duplicate set. -/
theorem claim_C2_witness :
    ∃ hero, select_hero_image
        [⟨"A", "a.jpg", "/a.jpg", ⟨900, 128, 60, (1920, 1280)⟩⟩,
         ⟨"B", "b.jpg", "/b.jpg", ⟨400, 95, 50, (1920, 1280)⟩⟩] ["B"] = some hero ∧
      (∀ img, hero_score img ["B"] = hero_score_spec img ["B"]) ∧
      (∀ img ∈ [⟨"A", "a.jpg", "/a.jpg", ⟨900, 128, 60, (1920, 1280)⟩⟩,
                ⟨"B", "b.jpg", "/b.jpg", ⟨400, 95, 50, (1920, 1280)⟩⟩],
        hero_score img ["B"] ≤ hero_score hero ["B"]) ∧
      ∃ l1 l2,
        [⟨"A", "a.jpg", "/a.jpg", ⟨900, 128, 60, (1920, 1280)⟩⟩,
         ⟨"B", "b.jpg", "/b.jpg", ⟨400, 95, 50, (1920, 1280)⟩⟩] = l1 ++ hero :: l2 ∧
        ∀ img ∈ l1, hero_score img ["B"] < hero_score hero ["B"] :=
  claim_C2
    [⟨"A", "a.jpg", "/a.jpg", ⟨900, 128, 60, (1920, 1280)⟩⟩,
     ⟨"B", "b.jpg", "/b.jpg", ⟨400, 95, 50, (1920, 1280)⟩⟩] ["B"] (by decide)

/-- C5: the composite score equals the specified weighted formula scaled to
0-100 and clamped, and composite score, flags, suggestions and grade are
pure deterministic functions of the four raw measurements. -/
theorem claim_C5 (m : QualityMetrics) :
    m.composite_score =
      composite_score_spec m.blur_score m.brightness m.contrast
        m.resolution.1 m.resolution.2 ∧
    ∀ m' : QualityMetrics, m.blur_score = m'.blur_score → m.brightness = m'.brightness →
      m.contrast = m'.contrast → m.resolution = m'.resolution →
      m.composite_score = m'.composite_score ∧
        m.generate_flags = m'.generate_flags ∧
        m.generate_suggestions = m'.generate_suggestions ∧
        m.quality_grade = m'.quality_grade := by
  constructor
  · simp only [QualityMetrics.composite_score, composite_score_spec]
    congr 2
    ring
  · intro m' h1 h2 h3 h4
    obtain ⟨b, br, c, r⟩ := m
    obtain ⟨b', br', c', r'⟩ := m'
    simp only at h1 h2 h3 h4
    subst h1; subst h2; subst h3; subst h4
    exact ⟨rfl, rfl, rfl, rfl⟩

/-- C5 witness: determinism instantiated at a concrete pair of equal raw
measurements. -/
theorem claim_C5_witness :
    QualityMetrics.composite_score ⟨400, 95, 50, (1920, 1280)⟩ =
      QualityMetrics.composite_score ⟨400, 95, 50, (1920, 1280)⟩ ∧
    QualityMetrics.generate_flags ⟨400, 95, 50, (1920, 1280)⟩ =
      QualityMetrics.generate_flags ⟨400, 95, 50, (1920, 1280)⟩ ∧
    QualityMetrics.generate_suggestions ⟨400, 95, 50, (1920, 1280)⟩ =
      QualityMetrics.generate_suggestions ⟨400, 95, 50, (1920, 1280)⟩ ∧
    QualityMetrics.quality_grade ⟨400, 95, 50, (1920, 1280)⟩ =
      QualityMetrics.quality_grade ⟨400, 95, 50, (1920, 1280)⟩ :=
  (claim_C5 ⟨400, 95, 50, (1920, 1280)⟩).2 ⟨400, 95, 50, (1920, 1280)⟩ rfl rfl rfl rfl

/-- C9: an image that cannot be decoded yields the all-zero metrics
(raw measurements 0, resolution 0×0, composite score 0), and the derived
flags, suggestions and grade of those metrics are well defined. -/
theorem claim_C9 (hasCV2 : Bool) (measure : ℕ × ℕ → ℚ × ℚ × ℚ) :
    QualityAnalyzer.analyze_image_quality hasCV2 none measure = ⟨0, 0, 0, (0, 0)⟩ ∧
    (QualityAnalyzer.analyze_image_quality hasCV2 none measure).composite_score = 0 ∧
    (QualityAnalyzer.analyze_image_quality hasCV2 none measure).quality_grade = "POOR" ∧
    (QualityAnalyzer.analyze_image_quality hasCV2 none measure).generate_flags =
      ["blurry", "too_dark", "low_contrast", "inadequate_resolution",
       "very_low_pixel_count"] ∧
    (QualityAnalyzer.analyze_image_quality hasCV2 none measure).generate_suggestions.length ≤ 8 := by
  have h : QualityAnalyzer.analyze_image_quality hasCV2 none measure = ⟨0, 0, 0, (0, 0)⟩ := by
    cases hasCV2 <;> rfl
  rw [h]
  refine ⟨rfl, by norm_num [QualityMetrics.composite_score], ?_, ?_, ?_⟩
  · norm_num [QualityMetrics.quality_grade, QualityMetrics.composite_score]
  · norm_num [QualityMetrics.generate_flags]
  · norm_num [QualityMetrics.generate_suggestions, QualityMetrics.suggestions_base,
      QualityMetrics.generate_flags, QualityMetrics.composite_score]

/-- C10 counterexample: an image with no flags but at least three
accumulated suggestions (exceptional sharpness, perfect lighting,
excellent contrast) does not receive the "meets standards"
acknowledgment entries. -/
theorem claim_C10_cex :
    QualityMetrics.generate_flags ⟨900, 128, 60, (1920, 1280)⟩ = [] ∧
    "✅ Meets all e-commerce quality standards" ∉
      QualityMetrics.generate_suggestions ⟨900, 128, 60, (1920, 1280)⟩ := by
  constructor
  · norm_num [QualityMetrics.generate_flags]
  · norm_num [QualityMetrics.generate_suggestions, QualityMetrics.suggestions_base,
      QualityMetrics.generate_flags, QualityMetrics.composite_score]
    decide

/-- C10 (amended): the suggestion list never has more than 8 entries, and
the "meets standards" acknowledgment entries are emitted when no flags are
present AND fewer than three suggestions were otherwise accumulated. -/
theorem claim_C10 (m : QualityMetrics) :
    m.generate_suggestions.length ≤ 8 ∧
    (m.generate_flags = [] → m.suggestions_base.length < 3 →
      "✅ Meets all e-commerce quality standards" ∈ m.generate_suggestions ∧
      "🎯 Ready for immediate use - Will drive conversions" ∈ m.generate_suggestions ∧
      "💰 Professional-grade image quality" ∈ m.generate_suggestions) := by
  constructor
  · simp only [QualityMetrics.generate_suggestions]
    apply List.length_take_le
  · intro hflags hlen
    have hcond : m.suggestions_base.length < 3 ∧ m.generate_flags = [] := ⟨hlen, hflags⟩
    simp only [QualityMetrics.generate_suggestions]
    rw [if_pos hcond]
    have hle : (m.suggestions_base ++
        ["✅ Meets all e-commerce quality standards",
         "🎯 Ready for immediate use - Will drive conversions",
         "💰 Professional-grade image quality"]).length ≤ 8 := by
      rw [List.length_append]
      simp only [List.length_cons, List.length_nil]
      omega
    rw [List.take_of_length_le hle]
    refine ⟨?_, ?_, ?_⟩ <;> exact List.mem_append.2 (Or.inr (by simp))

/-- C10 witness: a flag-free image with only two accumulated suggestions
does receive all three acknowledgment entries. -/
theorem claim_C10_witness :
    "✅ Meets all e-commerce quality standards" ∈
        QualityMetrics.generate_suggestions ⟨400, 95, 50, (1920, 1280)⟩ ∧
      "🎯 Ready for immediate use - Will drive conversions" ∈
        QualityMetrics.generate_suggestions ⟨400, 95, 50, (1920, 1280)⟩ ∧
      "💰 Professional-grade image quality" ∈
        QualityMetrics.generate_suggestions ⟨400, 95, 50, (1920, 1280)⟩ :=
  (claim_C10 ⟨400, 95, 50, (1920, 1280)⟩).2
    (by norm_num [QualityMetrics.generate_flags])
    (by norm_num [QualityMetrics.suggestions_base, QualityMetrics.generate_flags,
      QualityMetrics.composite_score])

/-- C7 counterexample: `update_weights` accepts weights summing to 1.005,
which is different from 1.0 but within the 0.01 tolerance. -/
theorem claim_C7_cex :
    update_weights {} 0.7 0.305 =
      .ok { quality_weight := 0.7, diversity_weight := 0.305, duplicate_penalty := 0.3 } ∧
    (0.7 + 0.305 : ℚ) ≠ 1 := by
  constructor
  · have h : ¬ (|(0.7 : ℚ) + 0.305 - 1| > 0.01) := by
      rw [abs_of_nonneg (by norm_num)]
      norm_num
    simp only [update_weights]
    rw [if_neg h]
  · norm_num

/-- C7 (amended): `analyze_similarity` raises exactly when the embedding
count differs from the id count; `update_weights` raises exactly when the
weight sum is more than 0.01 away from 1.0; `set_duplicate_penalty` raises
exactly when the penalty is outside [0, 1]. -/
theorem claim_C7 (computeMatrix : List (List ℚ) → List (List ℚ))
    (embeddings : List (List ℚ)) (image_ids : List String) (t : ℚ)
    (engine : CarouselRecommendationEngine) (qw dw p : ℚ) :
    ((∃ msg, analyze_similarity computeMatrix embeddings image_ids t = .error msg) ↔
      embeddings.length ≠ image_ids.length) ∧
    ((∃ msg, update_weights engine qw dw = .error msg) ↔ |qw + dw - 1| > 0.01) ∧
    ((∃ msg, set_duplicate_penalty engine p = .error msg) ↔ ¬ (0 ≤ p ∧ p ≤ 1)) := by
  refine ⟨⟨?_, ?_⟩, ⟨?_, ?_⟩, ⟨?_, ?_⟩⟩
  · rintro ⟨msg, hmsg⟩
    simp only [analyze_similarity] at hmsg
    split_ifs at hmsg with h1 h2 h3
    exact h1
  · intro h
    exact ⟨_, by simp only [analyze_similarity]; rw [if_pos h]⟩
  · rintro ⟨msg, hmsg⟩
    simp only [update_weights] at hmsg
    split_ifs at hmsg with h1
    exact h1
  · intro h
    exact ⟨_, by simp only [update_weights]; rw [if_pos h]⟩
  · rintro ⟨msg, hmsg⟩
    simp only [set_duplicate_penalty] at hmsg
    split_ifs at hmsg with h1
    exact h1
  · intro h
    exact ⟨_, by simp only [set_duplicate_penalty]; rw [if_pos h]⟩

/-- C4 counterexample: with a negative similarity entry, the diversity
score is 1 (the running maximum starts at 0.0), not `1 − max similarity`,
which would be 3/2. -/
theorem claim_C4_cex :
    get_diversity_score "a" ["b"]
        (mkSimilarityResult [[1, -0.5], [-0.5, 1]] ["a", "b"]) = 1 ∧
    (mkSimilarityResult [[1, -0.5], [-0.5, 1]] ["a", "b"]).get_similarity "a" "b" = -0.5 ∧
    (1 : ℚ) ≠ 1 - (-0.5) := by
  have hsim : (mkSimilarityResult [[1, -0.5], [-0.5, 1]] ["a", "b"]).get_similarity "a" "b" =
      -0.5 := rfl
  refine ⟨?_, hsim, by norm_num⟩
  simp only [get_diversity_score, List.isEmpty_cons, Bool.false_eq_true, if_false,
    List.foldl_cons, List.foldl_nil, hsim]
  rw [max_eq_left (by norm_num : (-0.5 : ℚ) ≤ 0)]
  norm_num

/-- C4 (amended): the diversity score is exactly 1.0 for an empty selected
set, and otherwise equals one minus the maximum of 0 and the largest
similarity between the candidate and the selected ids (the running maximum
starts at 0.0, so negative similarities are clamped away). -/
theorem claim_C4 (r : SimilarityResult) (x : String) (S : List String) :
    (S = [] → get_diversity_score x S r = 1) ∧
    ∀ M, (S.map fun s => r.get_similarity x s).max? = some M →
      get_diversity_score x S r = 1 - max 0 M := by
  constructor
  · intro h
    simp [get_diversity_score, h]
  · intro M hM
    match S with
    | [] => simp at hM
    | s :: ss =>
      have hM' : M = (ss.map fun u => r.get_similarity x u).foldl max (r.get_similarity x s) := by
        have hcons : ((s :: ss).map fun u => r.get_similarity x u).max? =
            some ((ss.map fun u => r.get_similarity x u).foldl max (r.get_similarity x s)) := rfl
        rw [hcons] at hM
        exact (Option.some.inj hM).symm
      have hfold : (s :: ss).foldl (fun acc u => max acc (r.get_similarity x u)) 0 =
          max 0 M := by
        rw [hM']
        calc (s :: ss).foldl (fun acc u => max acc (r.get_similarity x u)) 0
            = ((s :: ss).map fun u => r.get_similarity x u).foldl max 0 :=
              (List.foldl_map _ _ _ _).symm
          _ = (ss.map fun u => r.get_similarity x u).foldl max
                (max 0 (r.get_similarity x s)) := by
              simp [List.map_cons, List.foldl_cons]
          _ = max 0 ((ss.map fun u => r.get_similarity x u).foldl max
                (r.get_similarity x s)) := foldl_max_pull _ _ _
      simp only [get_diversity_score, List.isEmpty_cons, Bool.false_eq_true, if_false]
      rw [hfold]

/-- C4 witness: the amended diversity formula evaluated on the concrete
two-image result with similarity −0.5. -/
theorem claim_C4_witness :
    get_diversity_score "a" ["b"]
        (mkSimilarityResult [[1, -0.5], [-0.5, 1]] ["a", "b"]) = 1 - max 0 (-0.5) :=
  (claim_C4 (mkSimilarityResult [[1, -0.5], [-0.5, 1]] ["a", "b"]) "a" ["b"]).2 (-0.5)
    rfl

/-- C3: a pair `(i, j)` with `i < j` is reported as a duplicate exactly when
the matrix entry exceeds the threshold strictly, and the duplicate list is
antitone in the threshold. -/
theorem claim_C3 (m : List (List ℚ)) (ids : List String) (t t1 t2 : ℚ)
    (hnd : ids.Nodup) :
    (∀ i j, i < j → j < ids.length →
      ((∃ e ∈ find_duplicates m ids t, e.image_a = ids.getD i "" ∧ e.image_b = ids.getD j "")
        ↔ mget m i j > t)) ∧
    (t1 < t2 → ∀ e ∈ find_duplicates m ids t2, e ∈ find_duplicates m ids t1) := by
  constructor
  · intro i j hij hj
    constructor
    · rintro ⟨e, hmem, ha, hb⟩
      obtain ⟨i', j', hij', hj', ht', rfl⟩ := mem_find_duplicates.1 hmem
      simp only at ha hb
      have hi' : i' < ids.length := lt_trans hij' hj'
      have hi : i < ids.length := lt_trans hij hj
      rw [List.getD_eq_getElem _ _ hi', List.getD_eq_getElem _ _ hi] at ha
      rw [List.getD_eq_getElem _ _ hj', List.getD_eq_getElem _ _ hj] at hb
      have hii : i' = i := (hnd.getElem_inj_iff).1 ha
      have hjj : j' = j := (hnd.getElem_inj_iff).1 hb
      rw [hii, hjj] at ht'
      exact ht'
    · intro ht
      exact ⟨⟨ids.getD i "", ids.getD j "", mget m i j⟩,
        mem_find_duplicates.2 ⟨i, j, hij, hj, ht, rfl⟩, rfl, rfl⟩
  · intro h12 e hmem
    obtain ⟨i, j, hij, hj, ht, rfl⟩ := mem_find_duplicates.1 hmem
    exact mem_find_duplicates.2 ⟨i, j, hij, hj, lt_trans h12 ht, rfl⟩

/-- C3 witness: the duplicate-reporting criterion and threshold
monotonicity on a concrete 2×2 similarity matrix. -/
theorem claim_C3_witness :
    ((∃ e ∈ find_duplicates [[1, 0.95], [0.95, 1]] ["a", "b"] 0.92,
        e.image_a = ["a", "b"].getD 0 "" ∧ e.image_b = ["a", "b"].getD 1 "")
      ↔ mget [[1, 0.95], [0.95, 1]] 0 1 > 0.92) ∧
    (∀ e ∈ find_duplicates [[1, 0.95], [0.95, 1]] ["a", "b"] 0.92,
      e ∈ find_duplicates [[1, 0.95], [0.95, 1]] ["a", "b"] 0.5) :=
  ⟨(claim_C3 [[1, 0.95], [0.95, 1]] ["a", "b"] 0.92 0.5 0.92 (by decide)).1 0 1
      (by decide) (by decide),
   (claim_C3 [[1, 0.95], [0.95, 1]] ["a", "b"] 0.92 0.5 0.92 (by decide)).2 (by norm_num)⟩

/-- When the embedding count matches the id count, `analyze_similarity`
returns a result (all branches past the first check succeed). -/
lemma analyze_similarity_ok (computeMatrix : List (List ℚ) → List (List ℚ))
    (embeddings : List (List ℚ)) (image_ids : List String) (t : ℚ)
    (h : embeddings.length = image_ids.length) :
    ∃ r, analyze_similarity computeMatrix embeddings image_ids t = .ok r := by
  simp only [analyze_similarity]
  rw [if_neg (by omega)]
  split_ifs <;> exact ⟨_, rfl⟩

/-- Removing the unique image with a given id from a list of images with
pairwise-distinct ids drops the length by exactly one. -/
lemma length_filter_ne_id (images : List ImageData) (hero : ImageData)
    (hnd : (images.map ImageData.id).Nodup) (hmem : hero ∈ images) :
    (images.filter fun img => img.id ≠ hero.id).length = images.length - 1 := by
  induction images with
  | nil => cases hmem
  | cons a rest ih =>
    simp only [List.map_cons, List.nodup_cons] at hnd
    obtain ⟨hnotin, hnd'⟩ := hnd
    rcases List.mem_cons.1 hmem with heq | hmem'
    · subst heq
      have hall : (rest.filter fun img => img.id ≠ hero.id) = rest := by
        apply List.filter_eq_self.2
        intro img hmemi
        have hne : img.id ≠ hero.id := by
          intro hid
          exact hnotin (hid ▸ List.mem_map_of_mem ImageData.id hmemi)
        simpa using hne
      rw [List.filter_cons]
      have hcond : (decide (hero.id ≠ hero.id)) = false := by simp
      rw [hcond, if_neg (by simp), hall]
      simp
    · have hane : a.id ≠ hero.id := by
        intro hid
        exact hnotin (hid ▸ List.mem_map_of_mem ImageData.id hmem')
      have hpos : 0 < rest.length := List.length_pos.2 (List.ne_nil_of_mem hmem')
      rw [List.filter_cons]
      have hcond : (decide (a.id ≠ hero.id)) = true := by simp [hane]
      rw [hcond, if_pos rfl]
      rw [List.length_cons, ih hnd' hmem']
      simp only [List.length_cons]
      omega

/-- `_rank_remaining_images` produces one scored entry per input image. -/
lemma rank_remaining_images_length (engine : CarouselRecommendationEngine)
    (images selected : List ImageData) (sim : SimilarityResult) (dups : List String) :
    (rank_remaining_images engine images selected sim dups).length = images.length := by
  simp [rank_remaining_images, List.length_mergeSort]

/-- Binding a successful `Except` computation reduces to the continuation. -/
lemma except_bind_ok {α β : Type} {e : Except String α} {a : α} (h : e = .ok a)
    (k : α → Except String β) : (e >>= k) = k a := by
  rw [h]
  rfl

/-- C1: on a non-empty batch with pairwise-distinct ids and a matching
embedding list, `generate_recommendations` succeeds, its positions are
exactly 1..n in order, and exactly one recommendation (at position 1)
carries the hero flag. -/
theorem claim_C1 (computeMatrix : List (List ℚ) → List (List ℚ))
    (engine : CarouselRecommendationEngine) (images : List ImageData)
    (embeddings : List (List ℚ)) (t : ℚ)
    (hne : images ≠ []) (hnd : (images.map ImageData.id).Nodup)
    (hlen : embeddings.length = images.length) :
    ∃ result, generate_recommendations computeMatrix engine images embeddings t = .ok result ∧
      result.recommendations.map (fun item => item.position) =
        List.range' 1 images.length ∧
      (result.recommendations.filter (fun item => item.is_hero)).map
        (fun item => item.position) = [1] := by
  obtain ⟨sim, hsim⟩ := analyze_similarity_ok computeMatrix embeddings
    (images.map fun img => img.id) t (by simpa using hlen)
  obtain ⟨hero, hsel, -, l1, l2, hdecomp, -⟩ :=
    select_hero_image_spec images sim.get_duplicate_ids hne
  have hhero_mem : hero ∈ images := by
    rw [hdecomp]
    exact List.mem_append.2 (Or.inr (List.mem_cons_self _ _))
  have hempty : ¬ (images.isEmpty = true) := fun h => hne (List.isEmpty_iff.1 h)
  simp only [generate_recommendations, hempty, if_false]
  rw [except_bind_ok hsim, hsel]
  refine ⟨_, rfl, ?_, ?_⟩
  · simp only [List.map_cons, List.map_map]
    have hcomp : ((fun item : RecommendationItem => item.position) ∘
        (fun p : ℕ × ImageData × ℚ × String =>
          (⟨p.1, p.2.1.id, p.2.2.1, p.2.2.2, false⟩ : RecommendationItem))) =
        fun p : ℕ × ImageData × ℚ × String => p.1 := rfl
    rw [hcomp, List.enumFrom_map_fst, rank_remaining_images_length,
      length_filter_ne_id images hero hnd hhero_mem]
    obtain ⟨k, hk⟩ : ∃ k, images.length = k + 1 := by
      match images, hne with
      | a :: rest, _ => exact ⟨rest.length, rfl⟩
    rw [hk]
    simp [List.range'_succ]
  · have hfil : ∀ L : List (ImageData × ℚ × String),
        ((L.enumFrom 2).map (fun p =>
          (⟨p.1, p.2.1.id, p.2.2.1, p.2.2.2, false⟩ : RecommendationItem))).filter
            (fun item => item.is_hero) = [] := by
      intro L
      apply List.filter_eq_nil_iff.2
      intro a ha
      obtain ⟨p, -, rfl⟩ := List.mem_map.1 ha
      simp
    simp [List.filter_cons, hfil]

/-- C1 witness: the ranking invariant on a concrete two-image batch. -/
theorem claim_C1_witness :
    ∃ result, generate_recommendations (fun _ => [[1, 0.95], [0.95, 1]]) {}
        [⟨"A", "a.jpg", "/a.jpg", ⟨900, 128, 60, (1920, 1280)⟩⟩,
         ⟨"B", "b.jpg", "/b.jpg", ⟨400, 95, 50, (1920, 1280)⟩⟩]
        [[1], [2]] 0.92 = .ok result ∧
      result.recommendations.map (fun item => item.position) = List.range' 1 2 ∧
      (result.recommendations.filter (fun item => item.is_hero)).map
        (fun item => item.position) = [1] :=
  claim_C1 (fun _ => [[1, 0.95], [0.95, 1]]) {}
    [⟨"A", "a.jpg", "/a.jpg", ⟨900, 128, 60, (1920, 1280)⟩⟩,
     ⟨"B", "b.jpg", "/b.jpg", ⟨400, 95, 50, (1920, 1280)⟩⟩]
    [[1], [2]] 0.92 (by decide) (by decide) (by decide)

/-- A lookup in an association list succeeds exactly for the stored keys. -/
lemma lookup_isSome_iff {V : Type} (d : List (String × V)) (k : String) :
    (d.lookup k).isSome ↔ k ∈ d.map Prod.fst := by
  induction d with
  | nil => simp
  | cons p rest ih =>
    obtain ⟨a, b⟩ := p
    rw [List.map_cons, List.mem_cons, ← ih, List.lookup_cons]
    by_cases h : k = a
    · subst h
      simp
    · have hka : (k == a) = false := by simp [h]
      simp [hka, h]

/-- Updating an existing key in place does not change the key list. -/
lemma dict_set_map_fst {V : Type} (d : List (String × V)) (k : String) (v : V) :
    (dict_set d k v).map Prod.fst = d.map Prod.fst := by
  simp only [dict_set, List.map_map]
  apply List.map_congr_left
  intro p _
  by_cases h : p.1 = k <;> simp [h]

/-- Deleting a key from the dict filters it out of the key list. -/
lemma dict_del_map_fst {V : Type} (d : List (String × V)) (k : String) :
    (dict_del d k).map Prod.fst = (d.map Prod.fst).filter (fun x => ¬ x = k) := by
  simp only [dict_del]
  exact (@List.filter_map (String × V) String (fun x => decide ¬ x = k) Prod.fst d).symm

/-- Lookups after a deletion: the deleted key is gone, others unchanged. -/
lemma dict_del_lookup {V : Type} (d : List (String × V)) (k k' : String) :
    (dict_del d k).lookup k' = if k' = k then none else d.lookup k' := by
  induction d with
  | nil => simp [dict_del]
  | cons p rest ih =>
    obtain ⟨a, b⟩ := p
    simp only [dict_del] at ih ⊢
    rw [List.filter_cons]
    by_cases hak : a = k
    · have hcond : (decide ¬(a, b).1 = k) = false := by simp [hak]
      rw [hcond, if_neg (by simp), ih]
      by_cases h' : k' = k
      · rw [if_pos h', if_pos h']
      · rw [if_neg h', if_neg h', List.lookup_cons]
        have hk'a : ¬ k' = a := fun hk => h' (hk.trans hak)
        have hka : (k' == a) = false := by simp [hk'a]
        rw [hka]
    · have hcond : (decide ¬(a, b).1 = k) = true := by simp [hak]
      rw [hcond, if_pos rfl, List.lookup_cons, List.lookup_cons]
      by_cases h' : k' = a
      · have hka : (k' == a) = true := by simp [h']
        rw [hka]
        have h'' : ¬ k' = k := fun hkk => hak (h'.symm.trans hkk)
        rw [if_neg h'']
      · have hka : (k' == a) = false := by simp [h']
        rw [hka]
        exact ih

/-- Lookup through an append when the first dict misses. -/
lemma lookup_append_of_none {V : Type} {d1 : List (String × V)} (d2 : List (String × V))
    {k : String} (h : d1.lookup k = none) : (d1 ++ d2).lookup k = d2.lookup k := by
  induction d1 with
  | nil => simp
  | cons p rest ih =>
    obtain ⟨a, b⟩ := p
    rw [List.lookup_cons] at h
    rw [List.cons_append, List.lookup_cons]
    cases hka : (k == a) with
    | true => simp [hka] at h
    | false =>
      simp only []
      apply ih
      simpa [hka] using h

/-- Lookup through an append when the first dict hits. -/
lemma lookup_append_of_some {V : Type} {d1 : List (String × V)} (d2 : List (String × V))
    {k : String} {v : V} (h : d1.lookup k = some v) : (d1 ++ d2).lookup k = some v := by
  induction d1 with
  | nil => simp at h
  | cons p rest ih =>
    obtain ⟨a, b⟩ := p
    rw [List.lookup_cons] at h
    rw [List.cons_append, List.lookup_cons]
    cases hka : (k == a) with
    | true => simpa [hka] using h
    | false =>
      simp only []
      apply ih
      simpa [hka] using h

/-- The first component of `EmbeddingCache.get` is the dict lookup. -/
lemma get_fst {V : Type} (c : EmbeddingCache V) (k : String) :
    (c.get k).1 = c.cache.lookup k := by
  cases hl : c.cache.lookup k <;> simp [EmbeddingCache.get, hl]

/-- `EmbeddingCache.get` on a hit returns the stored value and moves the key
to the most-recently-used position, leaving the dict unchanged. -/
lemma get_hit {V : Type} (c : EmbeddingCache V) (k : String) (v : V)
    (h : c.cache.lookup k = some v) :
    c.get k = (some v, { c with access_order := c.access_order.erase k ++ [k] }) := by
  simp [EmbeddingCache.get, h]

/-- `EmbeddingCache.get` on a miss leaves the cache untouched. -/
lemma get_miss {V : Type} (c : EmbeddingCache V) (k : String)
    (h : c.cache.lookup k = none) : c.get k = (none, c) := by
  simp [EmbeddingCache.get, h]

/-- Moving a present key to the most-recently-used position preserves the
key/order permutation and the absence of repeats. -/
lemma perm_nodup_touch (keys order : List String) (k : String)
    (hperm : keys.Perm order) (hnodup : order.Nodup) (hmem : k ∈ order) :
    keys.Perm (order.erase k ++ [k]) ∧ (order.erase k ++ [k]).Nodup := by
  constructor
  · exact (hperm.trans (List.perm_cons_erase hmem)).trans
      (List.perm_append_singleton _ _).symm
  · rw [List.nodup_append]
    refine ⟨hnodup.erase k, List.nodup_singleton k, ?_⟩
    intro a ha
    simp only [List.mem_singleton]
    intro hak
    subst hak
    exact ((List.Nodup.mem_erase_iff hnodup).1 ha).1 rfl

/-- Evaluation of `EmbeddingCache.put` on a present key. -/
lemma put_existing {V : Type} (c : EmbeddingCache V) (k : String) (v : V)
    (hsome : (c.cache.lookup k).isSome = true) :
    c.put k v = ⟨c.max_size, dict_set c.cache k v, c.access_order.erase k ++ [k]⟩ := by
  simp only [EmbeddingCache.put, hsome, if_true]

/-- Evaluation of `EmbeddingCache.put` on a new key when the cache is full:
the least-recently-used key (head of the access order) is evicted. -/
lemma put_new_full {V : Type} (c : EmbeddingCache V) (k : String) (v : V)
    (lru : String) (rest : List String) (hnone : c.cache.lookup k = none)
    (hfull : c.cache.length ≥ c.max_size) (horder : c.access_order = lru :: rest) :
    c.put k v = ⟨c.max_size, dict_del c.cache lru ++ [(k, v)], rest ++ [k]⟩ := by
  simp only [EmbeddingCache.put, hnone, Option.isSome_none, Bool.false_eq_true, if_false,
    if_pos hfull, horder]

/-- Evaluation of `EmbeddingCache.put` on a new key when there is room. -/
lemma put_new_spare {V : Type} (c : EmbeddingCache V) (k : String) (v : V)
    (hnone : c.cache.lookup k = none) (hroom : ¬ c.cache.length ≥ c.max_size) :
    c.put k v = ⟨c.max_size, c.cache ++ [(k, v)], c.access_order ++ [k]⟩ := by
  simp only [EmbeddingCache.put, hnone, Option.isSome_none, Bool.false_eq_true, if_false,
    if_neg hroom]

/-- `EmbeddingCache.get` preserves well-formedness. -/
lemma WF_get {V : Type} (c : EmbeddingCache V) (k : String) (h : c.WF) :
    ((c.get k).2).WF := by
  obtain ⟨hperm, hnodup, hsize, hcap⟩ := h
  cases hl : c.cache.lookup k with
  | none =>
    rw [get_miss c k hl]
    exact ⟨hperm, hnodup, hsize, hcap⟩
  | some v =>
    rw [get_hit c k v hl]
    have hkmem : k ∈ c.access_order :=
      hperm.mem_iff.1 ((lookup_isSome_iff c.cache k).1 (by rw [hl]; rfl))
    obtain ⟨hp, hn⟩ := perm_nodup_touch _ _ k hperm hnodup hkmem
    exact ⟨hp, hn, hsize, hcap⟩

/-- `EmbeddingCache.put` preserves well-formedness; in particular the cache
never exceeds its capacity. -/
lemma WF_put {V : Type} (c : EmbeddingCache V) (k : String) (v : V) (h : c.WF) :
    (c.put k v).WF := by
  obtain ⟨hperm, hnodup, hsize, hcap⟩ := h
  by_cases hsome : (c.cache.lookup k).isSome = true
  · have hkmem : k ∈ c.access_order :=
      hperm.mem_iff.1 ((lookup_isSome_iff c.cache k).1 hsome)
    obtain ⟨hp, hn⟩ := perm_nodup_touch _ _ k hperm hnodup hkmem
    rw [put_existing c k v hsome]
    refine ⟨?_, hn, ?_, hcap⟩
    · rw [dict_set_map_fst]
      exact hp
    · simpa only [dict_set, List.length_map] using hsize
  · have hnone : c.cache.lookup k = none := by
      cases hx : c.cache.lookup k with
      | none => rfl
      | some w => exact absurd (by rw [hx]; rfl) hsome
    have hknotin_keys : k ∉ c.cache.map Prod.fst := fun hmem =>
      hsome ((lookup_isSome_iff c.cache k).2 hmem)
    have hknotin : k ∉ c.access_order := fun hmem => hknotin_keys (hperm.mem_iff.2 hmem)
    have hkeysnodup : (c.cache.map Prod.fst).Nodup := hperm.nodup_iff.2 hnodup
    have hkeyslen : (c.cache.map Prod.fst).length = c.cache.length := List.length_map _ _
    by_cases hfull : c.cache.length ≥ c.max_size
    · cases horder : c.access_order with
      | nil =>
        exfalso
        have : c.cache.map Prod.fst = [] := (horder ▸ hperm).eq_nil
        have : c.cache.length = 0 := by
          rw [← hkeyslen, this]
          rfl
        omega
      | cons lru rest =>
        rw [put_new_full c k v lru rest hnone hfull horder]
        have hlru_mem : lru ∈ c.cache.map Prod.fst :=
          hperm.mem_iff.2 (horder ▸ List.mem_cons_self _ _)
        have hfc : ((c.cache.map Prod.fst).filter fun x => ¬ x = lru) =
            (c.cache.map Prod.fst).filter (· != lru) := by
          apply List.filter_congr
          intro x _
          by_cases hx : x = lru <;> simp [hx]
        have hdelkeys : (dict_del c.cache lru).map Prod.fst =
            (c.cache.map Prod.fst).erase lru := by
          rw [dict_del_map_fst, hfc, ← List.Nodup.erase_eq_filter hkeysnodup]
        have hrest_nodup : rest.Nodup := by
          rw [horder] at hnodup
          exact (List.nodup_cons.1 hnodup).2
        have hknotin_rest : k ∉ rest := fun hk => hknotin (horder ▸ List.mem_cons_of_mem _ hk)
        refine ⟨?_, ?_, ?_, hcap⟩
        · rw [List.map_append, hdelkeys]
          have hek : ((c.cache.map Prod.fst).erase lru).Perm rest := by
            have herase := hperm.erase lru
            rw [horder, List.erase_cons_head] at herase
            exact herase
          simpa using hek.append_right [k]
        · rw [List.nodup_append]
          refine ⟨hrest_nodup, List.nodup_singleton k, ?_⟩
          intro a ha
          simp only [List.mem_singleton]
          intro hak
          subst hak
          exact hknotin_rest ha
        · rw [List.length_append]
          have h1 : (dict_del c.cache lru).length =
              ((c.cache.map Prod.fst).erase lru).length := by
            rw [← hdelkeys, List.length_map]
          have h2 : ((c.cache.map Prod.fst).erase lru).length =
              (c.cache.map Prod.fst).length - 1 := List.length_erase_of_mem hlru_mem
          have h3 : 1 ≤ c.cache.length := by omega
          simp only [List.length_cons, List.length_nil]
          omega
    · rw [put_new_spare c k v hnone hfull]
      refine ⟨?_, ?_, ?_, hcap⟩
      · rw [List.map_append]
        exact hperm.append_right _
      · rw [List.nodup_append]
        refine ⟨hnodup, List.nodup_singleton k, ?_⟩
        intro a ha
        simp only [List.mem_singleton]
        intro hak
        subst hak
        exact hknotin ha
      · rw [List.length_append]
        simp only [List.length_cons, List.length_nil]
        omega

/-- `put` never changes the capacity field. -/
lemma put_max_size {V : Type} (c : EmbeddingCache V) (k : String) (v : V) :
    (c.put k v).max_size = c.max_size := by
  simp only [EmbeddingCache.put]
  split_ifs with h1 h2
  · rfl
  · cases c.access_order <;> rfl
  · rfl

/-- Deleting a stored key drops the dict length by one (distinct keys). -/
lemma dict_del_length {V : Type} (d : List (String × V)) (k : String)
    (hnd : (d.map Prod.fst).Nodup) (hmem : k ∈ d.map Prod.fst) :
    (dict_del d k).length = d.length - 1 := by
  have hfc : ((d.map Prod.fst).filter fun x => ¬ x = k) =
      (d.map Prod.fst).filter (· != k) := by
    apply List.filter_congr
    intro x _
    by_cases hx : x = k <;> simp [hx]
  calc (dict_del d k).length = ((dict_del d k).map Prod.fst).length :=
        (List.length_map _ _).symm
    _ = ((d.map Prod.fst).erase k).length := by
        rw [dict_del_map_fst, hfc, ← List.Nodup.erase_eq_filter hnd]
    _ = (d.map Prod.fst).length - 1 := List.length_erase_of_mem hmem
    _ = d.length - 1 := by rw [List.length_map]

/-- C8: a well-formed embedding cache (as built by the generator, capacity
100) stays well formed and within capacity under `get` and `put`; a hit
moves exactly the accessed key to the most-recently-used position without
touching the dict; and inserting a fresh key into a full cache evicts
exactly the least-recently-used key: the evicted key then misses, the new
key and all other keys are present, and the size stays at capacity. -/
theorem claim_C8 {V : Type} (c : EmbeddingCache V) (h : c.WF) :
    (mkEmbeddingGenerator V).cache.max_size = 100 ∧
    (∀ key v, (c.put key v).WF ∧ (c.put key v).cache.length ≤ c.max_size) ∧
    (∀ key, ((c.get key).2).WF) ∧
    (∀ key v0, c.cache.lookup key = some v0 →
      c.get key = (some v0, { c with access_order := c.access_order.erase key ++ [key] })) ∧
    (∀ key v lru rest, c.cache.lookup key = none → c.cache.length = c.max_size →
      c.access_order = lru :: rest →
      ((c.put key v).get lru).1 = none ∧
      ((c.put key v).get key).1 = some v ∧
      (∀ k', k' ≠ lru → (c.cache.lookup k').isSome = true →
        ((c.put key v).get k').1.isSome = true) ∧
      (c.put key v).cache.length = c.max_size) := by
  obtain ⟨hperm, hnodup, hsize, hcap⟩ := h
  refine ⟨rfl, ?_, ?_, ?_, ?_⟩
  · intro key v
    have hwf := WF_put c key v ⟨hperm, hnodup, hsize, hcap⟩
    refine ⟨hwf, ?_⟩
    have hle := hwf.2.2.1
    rwa [put_max_size] at hle
  · intro key
    exact WF_get c key ⟨hperm, hnodup, hsize, hcap⟩
  · intro key v0 hl
    exact get_hit c key v0 hl
  · intro key v lru rest hnone hlen horder
    have hfull : c.cache.length ≥ c.max_size := hlen.ge
    have hkeysnodup : (c.cache.map Prod.fst).Nodup := hperm.nodup_iff.2 hnodup
    have hlru_mem_keys : lru ∈ c.cache.map Prod.fst :=
      hperm.mem_iff.2 (horder ▸ List.mem_cons_self _ _)
    have hlru_ne_key : lru ≠ key := by
      intro heq
      rw [heq] at hlru_mem_keys
      have := (lookup_isSome_iff c.cache key).2 hlru_mem_keys
      rw [hnone] at this
      cases this
    rw [put_new_full c key v lru rest hnone hfull horder]
    refine ⟨?_, ?_, ?_, ?_⟩
    · rw [get_fst]
      show (dict_del c.cache lru ++ [(key, v)]).lookup lru = none
      rw [lookup_append_of_none _ (by rw [dict_del_lookup, if_pos rfl])]
      rw [List.lookup_cons]
      have : (lru == key) = false := by simp [hlru_ne_key]
      rw [this]
      rfl
    · rw [get_fst]
      show (dict_del c.cache lru ++ [(key, v)]).lookup key = some v
      rw [lookup_append_of_none _ (by rw [dict_del_lookup, if_neg (Ne.symm hlru_ne_key), hnone])]
      rw [List.lookup_cons]
      have : (key == key) = true := by simp
      rw [this]
    · intro k' hk'lru hk'some
      rw [get_fst]
      obtain ⟨w, hw⟩ := Option.isSome_iff_exists.1 hk'some
      have hdel : (dict_del c.cache lru).lookup k' = some w := by
        rw [dict_del_lookup, if_neg hk'lru, hw]
      show ((dict_del c.cache lru ++ [(key, v)]).lookup k').isSome = true
      rw [lookup_append_of_some _ hdel]
      rfl
    · show (dict_del c.cache lru ++ [(key, v)]).length = c.max_size
      rw [List.length_append, dict_del_length c.cache lru hkeysnodup hlru_mem_keys]
      have h1 : 1 ≤ c.cache.length := by
        have : lru ∈ c.cache.map Prod.fst := hlru_mem_keys
        have : 0 < (c.cache.map Prod.fst).length := List.length_pos.2 (List.ne_nil_of_mem this)
        rw [List.length_map] at this
        omega
      simp only [List.length_cons, List.length_nil]
      omega

/-- C8 witness: the eviction behaviour on a concrete full cache of
capacity 2. -/
theorem claim_C8_witness :
    (((⟨2, [("a", 1), ("b", 2)], ["a", "b"]⟩ : EmbeddingCache ℕ).put "x" 7).get "a").1 =
      none ∧
    (((⟨2, [("a", 1), ("b", 2)], ["a", "b"]⟩ : EmbeddingCache ℕ).put "x" 7).get "x").1 =
      some 7 ∧
    (∀ k', k' ≠ "a" →
      ((⟨2, [("a", 1), ("b", 2)], ["a", "b"]⟩ : EmbeddingCache ℕ).cache.lookup k').isSome =
        true →
      ((((⟨2, [("a", 1), ("b", 2)], ["a", "b"]⟩ : EmbeddingCache ℕ).put "x" 7).get
        k').1.isSome = true)) ∧
    ((⟨2, [("a", 1), ("b", 2)], ["a", "b"]⟩ : EmbeddingCache ℕ).put "x" 7).cache.length =
      (⟨2, [("a", 1), ("b", 2)], ["a", "b"]⟩ : EmbeddingCache ℕ).max_size :=
  (claim_C8 ⟨2, [("a", 1), ("b", 2)], ["a", "b"]⟩ (by decide)).2.2.2.2 "x" 7 "a" ["b"]
    (by decide) (by decide) (by decide)

/-- C6 counterexample: with ML dependencies absent, `initialize` leaves the
model unloaded, the single-image embed still succeeds, but the batch embed
raises `RuntimeError` instead of returning fallback vectors. -/
theorem claim_C6_cex :
    EmbeddingGenerator.initialize false true (mkEmbeddingGenerator ℚ) =
      .ok (mkEmbeddingGenerator ℚ) ∧
    (∃ v g', EmbeddingGenerator.generate_embedding rationalOps (fun _ => 0) false
      (mkEmbeddingGenerator ℚ) "fingerprint" none = .ok (v, g')) ∧
    EmbeddingGenerator.generate_embeddings_batch rationalOps id
        (fun _ => (none : Option Unit)) (fun _ => []) (mkEmbeddingGenerator ℚ)
        ["img1.jpg"] =
      .error "Model not initialized. Call initialize() first." :=
  ⟨rfl, ⟨mock_embedding rationalOps (fun _ => 0) "fingerprint", mkEmbeddingGenerator ℚ, rfl⟩,
    rfl⟩

/-- C6 (amended): when the ML capability is absent the model is never
loaded; the single-image embed then returns, without raising, a unit-norm
vector that is a function of the content fingerprint alone; the batch embed
instead raises `RuntimeError("Model not initialized...")`. -/
theorem claim_C6 {V P : Type} (ops : NpOps V) (pyHash : String → ℕ)
    (g : EmbeddingGenerator V) (image_hash : String) (encoded : Option V)
    (fingerprintOf : String → String) (preprocess : String → Option P)
    (encode_image : List P → List V) (image_paths : List String) (loadOk : Bool)
    (hunit : ∀ s, ops.unit_norm (ops.normalize (ops.randomNormal s)))
    (hml : g.model_loaded = false) :
    EmbeddingGenerator.initialize false loadOk g = .ok g ∧
    (∃ v, EmbeddingGenerator.generate_embedding ops pyHash false g image_hash encoded =
        .ok (v, g) ∧ ops.unit_norm v ∧ v = mock_embedding ops pyHash image_hash) ∧
    EmbeddingGenerator.generate_embeddings_batch ops fingerprintOf preprocess encode_image
      g image_paths = .error "Model not initialized. Call initialize() first." := by
  refine ⟨rfl, ⟨mock_embedding ops pyHash image_hash, rfl, hunit _, rfl⟩, ?_⟩
  simp only [EmbeddingGenerator.generate_embeddings_batch, hml]
  rw [if_pos trivial]

/-- C6 witness: the amended statement instantiated with a concrete numpy
model over `ℚ`. -/
theorem claim_C6_witness :
    (∃ v, EmbeddingGenerator.generate_embedding rationalOps (fun _ => 0) false
        (mkEmbeddingGenerator ℚ) "fp" none = .ok (v, mkEmbeddingGenerator ℚ) ∧
      rationalOps.unit_norm v ∧ v = mock_embedding rationalOps (fun _ => 0) "fp") ∧
    EmbeddingGenerator.generate_embeddings_batch rationalOps id
        (fun _ => (none : Option Unit)) (fun _ => []) (mkEmbeddingGenerator ℚ)
        ["img.jpg"] =
      .error "Model not initialized. Call initialize() first." :=
  ⟨(claim_C6 rationalOps (fun _ => 0) (mkEmbeddingGenerator ℚ) "fp" none id
      (fun _ => (none : Option Unit)) (fun _ => []) ["img.jpg"] true
      (fun s => by norm_num [rationalOps]) rfl).2.1,
   (claim_C6 rationalOps (fun _ => 0) (mkEmbeddingGenerator ℚ) "fp" none id
      (fun _ => (none : Option Unit)) (fun _ => []) ["img.jpg"] true
      (fun s => by norm_num [rationalOps]) rfl).2.2⟩

/-- C7 witness: the three validation criteria instantiated at concrete
violating inputs (mismatched counts, weight sum 1.1, penalty 2). -/
theorem claim_C7_witness :
    (∃ msg, analyze_similarity (fun _ => []) [] ["a"] 0.92 = .error msg) ∧
    (∃ msg, update_weights {} 0.7 0.4 = .error msg) ∧
    (∃ msg, set_duplicate_penalty {} 2 = .error msg) := by
  have h := claim_C7 (fun _ => []) [] ["a"] 0.92 {} 0.7 0.4 2
  refine ⟨h.1.mpr (by norm_num), h.2.1.mpr ?_, h.2.2.mpr (by norm_num)⟩
  rw [show |(0.7 : ℚ) + 0.4 - 1| = 0.1 by rw [abs_of_nonneg] <;> norm_num]
  norm_num
